import Mathlib

/-!
A shallow embedding of djpjax.py (django-pjax).

Python strings become Lean Strings, Python dicts become association
lists, truthiness is made explicit (None and the empty string are
falsy), and raised exceptions are modelled with Except. Parsed
template node trees are a mutual inductive of nodes and nodelists;
changing a block nodelist's class to PJAXBlockNodeList is modelled by
a Boolean flag on the block node, and rendering threads the
captured-blocks dictionary through as explicit state.
-/

/-- Truthiness of a Python string: nonempty. -/
def strTruthy (s : String) : Bool := s ≠ ""

/-- Truthiness of an optional Python string: None and "" are falsy. -/
def optTruthy : Option String → Bool
  | none => false
  | some s => strTruthy s

/-- The string held by an optional value, "" for None. -/
def optStr : Option String → String
  | none => ""
  | some s => s

/-- Python dict lookup d.get(key) on an association list. -/
def assocGet {α : Type} : List (String × α) → String → Option α
  | [], _ => none
  | p :: rest, key => if p.1 = key then some p.2 else assocGet rest key

/-- Python dict assignment d[key] = v: replace in place, or append. -/
def assocSet {α : Type} : List (String × α) → String → α → List (String × α)
  | [], key, v => [(key, v)]
  | p :: rest, key, v => if p.1 = key then (key, v) :: rest else p :: assocSet rest key v

/-- Truthiness of request.META.get of the HTTP_X_PJAX header; META stores
each entry's truthiness. -/
def metaGetPjax (meta : List (String × Bool)) : Bool :=
  match assocGet meta "HTTP_X_PJAX" with
  | some b => b
  | none => false

/-- Split a character list at the first occurrence of c: the part before
and the part after the first c. -/
def splitFirst : List Char → Char → List Char × List Char
  | [], _ => ([], [])
  | x :: xs, c =>
    if x = c then ([], xs)
    else (x :: (splitFirst xs c).1, (splitFirst xs c).2)

/-- Python name.rsplit(c, 1) on a list of characters: the part before the
last c and the part after it. -/
def rsplitLast (cs : List Char) (c : Char) : List Char × List Char :=
  ((splitFirst cs.reverse c).2.reverse, (splitFirst cs.reverse c).1.reverse)

/-- The character-list body of djpjax._pjaxify_template_name: insert
"-pjax" before the last dot, or append "-pjax" when there is no dot. -/
def pjaxifyChars (cs : List Char) : List Char :=
  if '.' ∈ cs then
    (rsplitLast cs '.').1 ++ "-pjax.".data ++ (rsplitLast cs '.').2
  else cs ++ "-pjax".data

/-- djpjax._pjaxify_template_name. -/
def pjaxify_template_name (name : String) : String :=
  String.mk (pjaxifyChars name.data)

/-- A Python template-name variable: a string, a list or tuple of strings,
or some other object (left untouched by the code). -/
inductive TemplateVar where
  | str (s : String)
  | list (xs : List String)
  | tuple (xs : List String)
  | other (tag : Nat)
deriving DecidableEq

/-- djpjax._pjaxify_template_var: map over lists and tuples keeping the
container type, rewrite strings, pass anything else through. -/
def pjaxify_template_var : TemplateVar → TemplateVar
  | .list xs => .list (xs.map pjaxify_template_name)
  | .tuple xs => .tuple (xs.map pjaxify_template_name)
  | .str s => .str (pjaxify_template_name s)
  | .other tag => .other tag

-- A parsed template node: text, a leaf node with no nodelist, a
-- non-block node holding a nodelist, or a BlockNode with a name, its
-- children, and a flag recording whether its nodelist's class has been
-- set to PJAXBlockNodeList.
mutual
inductive Node where
  | text (s : String)
  | leaf
  | widget (children : NodeList)
  | block (name : String) (patched : Bool) (children : NodeList)
inductive NodeList where
  | nil
  | cons (n : Node) (ns : NodeList)
end

-- Template rendering output, ignoring block capture.
mutual
def outputNode : Node → String
  | .text s => s
  | .leaf => ""
  | .widget cs => outputList cs
  | .block _ _ cs => outputList cs
def outputList : NodeList → String
  | .nil => ""
  | .cons n ns => outputNode n ++ outputList ns
end

-- Rendering with the captured-blocks dict threaded through: a nodelist
-- whose class is PJAXBlockNodeList (patched = true on its block) stores its
-- rendered output in the dict under the block's name, after rendering its
-- children as usual.
mutual
def renderNode : Node → List (String × String) → String × List (String × String)
  | .text s, cap => (s, cap)
  | .leaf, cap => ("", cap)
  | .widget cs, cap => renderList cs cap
  | .block name p cs, cap =>
    let r := renderList cs cap
    (r.1, if p then assocSet r.2 name r.1 else r.2)
def renderList : NodeList → List (String × String) → String × List (String × String)
  | .nil, cap => ("", cap)
  | .cons n ns, cap =>
    let r := renderNode n cap
    let rest := renderList ns r.2
    (r.1 ++ rest.1, rest.2)
end

-- djpjax's patch_tree: walk the tree; a BlockNode whose name is in
-- target_blocks gets its nodelist class converted (patched set) and is not
-- recursed into; every other node that has a nodelist is recursed into.
mutual
def patchNode (targets : List String) : Node → Node
  | .text s => .text s
  | .leaf => .leaf
  | .widget cs => .widget (patchList targets cs)
  | .block name p cs =>
    if name ∈ targets then .block name true cs
    else .block name p (patchList targets cs)
def patchList (targets : List String) : NodeList → NodeList
  | .nil => .nil
  | .cons n ns => .cons (patchNode targets n) (patchList targets ns)
end

/-- Errors raised by the rendering path: TemplateSyntaxError, KeyError,
and Python's AttributeError for a missing attribute. -/
inductive RenderError where
  | templateSyntaxError (msg : String)
  | keyError (msg : String)
  | attributeError
deriving DecidableEq

/-- The list comprehension building target_blocks in rendered_content:
the truthy ones among (block_name, title_block), in that order. -/
def targetBlocks (block_name : String) (title_block : Option String) : List String :=
  (if strTruthy block_name then [block_name] else [])
    ++ (if optTruthy title_block then [optStr title_block] else [])

/-- The title_html expression of rendered_content: a title line when the
title value is truthy, the empty string otherwise. -/
def titleHtml : Option String → String
  | none => ""
  | some t => if strTruthy t then "<title>" ++ t ++ "</title>\n" else ""

/-- The title if/elif/else chain of rendered_content: a truthy
title_block is looked up among the captured blocks (TemplateSyntaxError
when absent), else a truthy title_variable is looked up in the context
(KeyError when absent), else the title is None. -/
def resolveTitle (captured ctx : List (String × String))
    (title_variable title_block : Option String) : Except RenderError (Option String) :=
  if optTruthy title_block then
    match assocGet captured (optStr title_block) with
    | some t => .ok (some t)
    | none => .error (.templateSyntaxError
        ("PJAX title block " ++ optStr title_block ++ " does not exist or was not rendered"))
  else if optTruthy title_variable then
    match assocGet ctx (optStr title_variable) with
    | some t => .ok (some t)
    | none => .error (.keyError
        ("PJAX title variable " ++ optStr title_variable ++ " not found in context"))
  else .ok none

/-- PJAXBlockTemplateResponse.rendered_content: patch the tree for the
target blocks, render the whole template into an empty captured-blocks
dict, then return the title html prepended to the captured target block
content, raising TemplateSyntaxError when the target block was never
captured. -/
def rendered_content (tpl : NodeList) (ctx : List (String × String))
    (block_name : String) (title_variable title_block : Option String) :
    Except RenderError String :=
  let targets := targetBlocks block_name title_block
  let captured := (renderList (patchList targets tpl) []).2
  match assocGet captured block_name with
  | none => .error (.templateSyntaxError
      ("PJAX block " ++ block_name ++ " does not exist or was not rendered"))
  | some target_block_content =>
    match resolveTitle captured ctx title_variable title_block with
    | .error e => .error e
    | .ok title => .ok (titleHtml title ++ target_block_content)

/-- The dynamic class of a response object. -/
inductive RespClass where
  | templateResponse
  | pjaxBlockTemplateResponse
deriving DecidableEq

/-- The attributes pjax_block's wrapper sets on the response. -/
structure PjaxAttrs where
  block_name : String
  title_variable : Option String
  title_block : Option String
deriving DecidableEq

/-- A TemplateResponse: its class, template_name, context_data (also the
resolved rendering context), the resolved template tree, the pjax
attributes when set, and a stand-in for every other attribute. -/
structure Resp where
  cls : RespClass
  template_name : TemplateVar
  context_data : List (String × String)
  template : NodeList
  pjaxAttrs : Option PjaxAttrs
  other : Nat

/-- An HTTP request: META maps header keys to the truthiness of their
values; other stands for all request data outside META. -/
structure Request where
  meta : List (String × Bool)
  other : Nat

/-- rendered_content as looked up on a response object: the overridden
property on PJAXBlockTemplateResponse, the plain full-page rendering on
TemplateResponse; reading the pjax attributes when they were never set
is an AttributeError. -/
def Resp.renderedContent (r : Resp) : Except RenderError String :=
  match r.cls with
  | .pjaxBlockTemplateResponse =>
    match r.pjaxAttrs with
    | some a => rendered_content r.template r.context_data a.block_name a.title_variable a.title_block
    | none => .error .attributeError
  | .templateResponse => .ok (renderList r.template []).1

/-- The _view closure inside pjax_block's decorator: on a PJAX request,
swap the response class to PJAXBlockTemplateResponse and set the block
and title attributes; otherwise return the response untouched. -/
def pjax_block_view (block : String) (title_variable title_block : Option String)
    (view : Request → Resp) (request : Request) : Resp :=
  let resp := view request
  if metaGetPjax request.meta then
    { resp with cls := .pjaxBlockTemplateResponse,
                pjaxAttrs := some ⟨block, title_variable, title_block⟩ }
  else resp

/-- djpjax.pjax_block: raise TypeError when both title_variable and
title_block are truthy, otherwise return the decorator. -/
def pjax_block (block : String) (title_variable title_block : Option String) :
    Except String ((Request → Resp) → Request → Resp) :=
  if optTruthy title_variable && optTruthy title_block then
    .error "Only one of title_variable and title_block may be passed to pjax decorator."
  else .ok (pjax_block_view block title_variable title_block)

/-- The _view closure inside djpjax.pjax: on a PJAX request, replace
template_name by the given pjax_template when truthy, else pjaxify the
existing template_name. -/
def pjax (pjax_template : Option String) (view : Request → Resp) (request : Request) : Resp :=
  let resp := view request
  if metaGetPjax request.meta then
    if optTruthy pjax_template then { resp with template_name := .str (optStr pjax_template) }
    else { resp with template_name := pjaxify_template_var resp.template_name }
  else resp

/-- The _view closure inside djpjax.pjaxtend: set context_data of
context_var to pjax_parent on a PJAX request, else to parent when parent
is truthy. -/
def pjaxtend (parent pjax_parent context_var : String)
    (view : Request → Resp) (request : Request) : Resp :=
  let resp := view request
  if metaGetPjax request.meta then
    { resp with context_data := assocSet resp.context_data context_var pjax_parent }
  else if strTruthy parent then
    { resp with context_data := assocSet resp.context_data context_var parent }
  else resp

/-- PJAXResponseMixin.get_template_names, with the superclass result and
the request META passed in: on a PJAX request return [pjax_template_name]
when that attribute is truthy, else the pjaxified superclass names. -/
def get_template_names (meta : List (String × Bool)) (pjax_template_name : Option String)
    (superNames : TemplateVar) : TemplateVar :=
  if metaGetPjax meta then
    if optTruthy pjax_template_name then .list [optStr pjax_template_name]
    else pjaxify_template_var superNames
  else superNames

/-- Apply a list of dict assignments in order. -/
def applyCaps (cap : List (String × String)) (l : List (String × String)) :
    List (String × String) :=
  l.foldl (fun c p => assocSet c p.1 p.2) cap

-- The capture entries a tree stores during rendering, in store order:
-- a patched block stores its children's output under its name after the
-- children themselves have rendered.
mutual
def emitsNode : Node → List (String × String)
  | .text _ => []
  | .leaf => []
  | .widget cs => emitsList cs
  | .block name p cs =>
    if p then emitsList cs ++ [(name, outputList cs)] else emitsList cs
def emitsList : NodeList → List (String × String)
  | .nil => []
  | .cons n ns => emitsNode n ++ emitsList ns
end

-- A fresh template tree: no nodelist has been converted to
-- PJAXBlockNodeList yet.
mutual
def freshNode : Node → Bool
  | .text _ => true
  | .leaf => true
  | .widget cs => freshList cs
  | .block _ p cs => !p && freshList cs
def freshList : NodeList → Bool
  | .nil => true
  | .cons n ns => freshNode n && freshList ns
end

-- The capture entries produced by rendering a fresh tree after
-- patch_tree: one entry per target block reached by the walk, pairing
-- the block's name with its children's rendered output; the walk does
-- not look below a matching block.
mutual
def pjaxEmitsNode (targets : List String) : Node → List (String × String)
  | .text _ => []
  | .leaf => []
  | .widget cs => pjaxEmitsList targets cs
  | .block name _ cs =>
    if name ∈ targets then [(name, outputList cs)] else pjaxEmitsList targets cs
def pjaxEmitsList (targets : List String) : NodeList → List (String × String)
  | .nil => []
  | .cons n ns => pjaxEmitsNode targets n ++ pjaxEmitsList targets ns
end

/-- The last value stored for a key by a sequence of dict assignments. -/
def lastCapture (l : List (String × String)) (k : String) : Option String :=
  l.foldl (fun acc p => if p.1 = k then some p.2 else acc) none

-- Number of nodes in a tree.
mutual
def countNode : Node → Nat
  | .text _ => 1
  | .leaf => 1
  | .widget cs => 1 + countList cs
  | .block _ _ cs => 1 + countList cs
def countList : NodeList → Nat
  | .nil => 0
  | .cons n ns => countNode n + countList ns
end

-- The specification of the patch_tree walk, written from its description:
-- text and leaf nodes are untouched, a block whose name is a target has
-- exactly its nodelist class converted and its children left alone, any
-- other node with a nodelist has its children walked recursively.
mutual
inductive PatchSpecNode (targets : List String) : Node → Node → Prop where
  | text (s : String) : PatchSpecNode targets (.text s) (.text s)
  | leaf : PatchSpecNode targets .leaf .leaf
  | widget (cs cs2 : NodeList) : PatchSpecList targets cs cs2 →
      PatchSpecNode targets (.widget cs) (.widget cs2)
  | blockMatch (name : String) (p : Bool) (cs : NodeList) : name ∈ targets →
      PatchSpecNode targets (.block name p cs) (.block name true cs)
  | blockNoMatch (name : String) (p : Bool) (cs cs2 : NodeList) : name ∉ targets →
      PatchSpecList targets cs cs2 →
      PatchSpecNode targets (.block name p cs) (.block name p cs2)
inductive PatchSpecList (targets : List String) : NodeList → NodeList → Prop where
  | nil : PatchSpecList targets .nil .nil
  | cons (n n2 : Node) (ns ns2 : NodeList) : PatchSpecNode targets n n2 →
      PatchSpecList targets ns ns2 →
      PatchSpecList targets (.cons n ns) (.cons n2 ns2)
end

theorem assocGet_assocSet {α : Type} (cap : List (String × α)) (k key : String) (v : α) :
    assocGet (assocSet cap k v) key = if k = key then some v else assocGet cap key := by
  induction cap with
  | nil => by_cases h : k = key <;> simp [assocSet, assocGet, h]
  | cons p rest ih =>
    by_cases h : p.1 = k
    · by_cases h2 : k = key <;> simp [assocSet, assocGet, h, h2]
    · simp only [assocSet, if_neg h, assocGet, ih]
      split_ifs with h1 h2
      · exact absurd (h1.trans h2.symm) h
      · rfl
      · rfl
      · rfl

theorem applyCaps_cons (cap : List (String × String)) (p : String × String)
    (l : List (String × String)) :
    applyCaps cap (p :: l) = applyCaps (assocSet cap p.1 p.2) l := rfl

theorem applyCaps_append (cap : List (String × String)) (l1 l2 : List (String × String)) :
    applyCaps cap (l1 ++ l2) = applyCaps (applyCaps cap l1) l2 := by
  simp [applyCaps, List.foldl_append]

theorem assocGet_applyCaps (l : List (String × String)) :
    ∀ (cap : List (String × String)) (k : String),
      assocGet (applyCaps cap l) k
        = l.foldl (fun acc p => if p.1 = k then some p.2 else acc) (assocGet cap k) := by
  induction l with
  | nil => intro cap k; rfl
  | cons p l ih =>
    intro cap k
    rw [applyCaps_cons, ih, List.foldl_cons]
    congr 1
    exact assocGet_assocSet cap p.1 k p.2

theorem assocGet_applyCaps_empty (l : List (String × String)) (k : String) :
    assocGet (applyCaps [] l) k = lastCapture l k := by
  rw [assocGet_applyCaps]
  rfl

mutual
theorem outputNode_patch (targets : List String) : (n : Node) →
    outputNode (patchNode targets n) = outputNode n
  | .text _ => rfl
  | .leaf => rfl
  | .widget cs => by simp [patchNode, outputNode, outputList_patch targets cs]
  | .block name p cs => by
    by_cases h : name ∈ targets <;>
      simp [patchNode, h, outputNode, outputList_patch targets cs]
theorem outputList_patch (targets : List String) : (ns : NodeList) →
    outputList (patchList targets ns) = outputList ns
  | .nil => rfl
  | .cons n ns => by
    simp [patchList, outputList, outputNode_patch targets n, outputList_patch targets ns]
end

mutual
theorem emitsNode_fresh : (n : Node) → freshNode n = true → emitsNode n = []
  | .text _, _ => rfl
  | .leaf, _ => rfl
  | .widget cs, h => by
    simp only [freshNode] at h
    simp [emitsNode, emitsList_fresh cs h]
  | .block name p cs, h => by
    simp only [freshNode, Bool.and_eq_true, Bool.not_eq_true'] at h
    simp [emitsNode, h.1, emitsList_fresh cs h.2]
theorem emitsList_fresh : (ns : NodeList) → freshList ns = true → emitsList ns = []
  | .nil, _ => rfl
  | .cons n ns, h => by
    simp only [freshList, Bool.and_eq_true] at h
    simp [emitsList, emitsNode_fresh n h.1, emitsList_fresh ns h.2]
end

mutual
theorem emitsNode_patch (targets : List String) : (n : Node) → freshNode n = true →
    emitsNode (patchNode targets n) = pjaxEmitsNode targets n
  | .text _, _ => rfl
  | .leaf, _ => rfl
  | .widget cs, h => by
    simp only [freshNode] at h
    simp [patchNode, emitsNode, pjaxEmitsNode, emitsList_patch targets cs h]
  | .block name p cs, h => by
    simp only [freshNode, Bool.and_eq_true, Bool.not_eq_true'] at h
    by_cases hm : name ∈ targets
    · simp [patchNode, hm, emitsNode, pjaxEmitsNode, emitsList_fresh cs h.2]
    · simp [patchNode, hm, emitsNode, pjaxEmitsNode, h.1, emitsList_patch targets cs h.2]
theorem emitsList_patch (targets : List String) : (ns : NodeList) → freshList ns = true →
    emitsList (patchList targets ns) = pjaxEmitsList targets ns
  | .nil, _ => rfl
  | .cons n ns, h => by
    simp only [freshList, Bool.and_eq_true] at h
    simp [patchList, emitsList, pjaxEmitsList, emitsNode_patch targets n h.1,
      emitsList_patch targets ns h.2]
end

mutual
theorem renderNode_eq : (n : Node) → (cap : List (String × String)) →
    renderNode n cap = (outputNode n, applyCaps cap (emitsNode n))
  | .text _, _ => rfl
  | .leaf, _ => rfl
  | .widget cs, cap => by
    simp [renderNode, outputNode, emitsNode, renderList_eq cs cap]
  | .block name p cs, cap => by
    cases p <;>
      simp [renderNode, renderList_eq cs cap, outputNode, emitsNode,
        applyCaps_append, applyCaps, assocSet]
theorem renderList_eq : (ns : NodeList) → (cap : List (String × String)) →
    renderList ns cap = (outputList ns, applyCaps cap (emitsList ns))
  | .nil, _ => rfl
  | .cons n ns, cap => by
    simp [renderList, renderNode_eq n cap, renderList_eq ns (applyCaps cap (emitsNode n)),
      outputList, emitsList, applyCaps_append]
end

mutual
theorem countNode_patch (targets : List String) : (n : Node) →
    countNode (patchNode targets n) = countNode n
  | .text _ => rfl
  | .leaf => rfl
  | .widget cs => by simp [patchNode, countNode, countList_patch targets cs]
  | .block name p cs => by
    by_cases h : name ∈ targets <;>
      simp [patchNode, h, countNode, countList_patch targets cs]
theorem countList_patch (targets : List String) : (ns : NodeList) →
    countList (patchList targets ns) = countList ns
  | .nil => rfl
  | .cons n ns => by
    simp [patchList, countList, countNode_patch targets n, countList_patch targets ns]
end

mutual
theorem patchNode_patchSpec (targets : List String) : (n : Node) →
    PatchSpecNode targets n (patchNode targets n)
  | .text s => .text s
  | .leaf => .leaf
  | .widget cs => .widget cs (patchList targets cs) (patchList_patchSpec targets cs)
  | .block name p cs => by
    by_cases h : name ∈ targets
    · simpa [patchNode, h] using PatchSpecNode.blockMatch name p cs h
    · simpa [patchNode, h] using
        PatchSpecNode.blockNoMatch name p cs (patchList targets cs) h (patchList_patchSpec targets cs)
theorem patchList_patchSpec (targets : List String) : (ns : NodeList) →
    PatchSpecList targets ns (patchList targets ns)
  | .nil => .nil
  | .cons n ns => .cons n (patchNode targets n) ns (patchList targets ns)
      (patchNode_patchSpec targets n) (patchList_patchSpec targets ns)
end

theorem splitFirst_spec (c : Char) : (xs : List Char) → c ∈ xs →
    xs = (splitFirst xs c).1 ++ c :: (splitFirst xs c).2 ∧ c ∉ (splitFirst xs c).1 := by
  intro xs
  induction xs with
  | nil => intro h; cases h
  | cons x xs ih =>
    intro h
    by_cases hx : x = c
    · subst hx; simp [splitFirst]
    · have hmem : c ∈ xs := by
        cases h with
        | head => exact absurd rfl hx
        | tail _ h2 => exact h2
      obtain ⟨h1, h2⟩ := ih hmem
      constructor
      · simp only [splitFirst, if_neg hx, List.cons_append]
        exact congrArg (x :: ·) h1
      · simp only [splitFirst, if_neg hx]
        intro hc
        rcases List.mem_cons.mp hc with h3 | h3
        · exact hx h3.symm
        · exact h2 h3

theorem rsplitLast_spec (cs : List Char) (c : Char) (h : c ∈ cs) :
    cs = (rsplitLast cs c).1 ++ c :: (rsplitLast cs c).2 ∧ c ∉ (rsplitLast cs c).2 := by
  have hrev : c ∈ cs.reverse := List.mem_reverse.mpr h
  obtain ⟨h1, h2⟩ := splitFirst_spec c cs.reverse hrev
  constructor
  · conv_lhs => rw [← List.reverse_reverse cs, h1]
    simp [rsplitLast, List.reverse_append]
  · simp only [rsplitLast, List.mem_reverse]
    exact h2

theorem pjaxify_dot (name : String) (h : '.' ∈ name.data) :
    ∃ pre ext, name.data = pre ++ '.' :: ext ∧ '.' ∉ ext ∧
      (pjaxify_template_name name).data = pre ++ "-pjax.".data ++ ext := by
  obtain ⟨h1, h2⟩ := rsplitLast_spec name.data '.' h
  refine ⟨(rsplitLast name.data '.').1, (rsplitLast name.data '.').2, h1, h2, ?_⟩
  simp [pjaxify_template_name, pjaxifyChars, h]

theorem pjaxify_nodot (name : String) (h : '.' ∉ name.data) :
    pjaxify_template_name name = name ++ "-pjax" := by
  simp only [pjaxify_template_name, pjaxifyChars, if_neg h]
  cases name
  rfl

/-- A small concrete template: literal text around one block named
content that renders hello. -/
def demoTemplate : NodeList :=
  .cons (.text "<html>")
    (.cons (.block "content" false (.cons (.text "hello") .nil))
      (.cons (.text "</html>") .nil))

/-- A concrete template response produced by an undecorated view. -/
def demoResp : Resp :=
  { cls := .templateResponse, template_name := .str "page.html",
    context_data := [("title", "Home")], template := demoTemplate,
    pjaxAttrs := none, other := 7 }

/-- A concrete view returning demoResp for every request. -/
def demoView : Request → Resp := fun _ => demoResp

/-- A concrete request carrying a truthy HTTP_X_PJAX header. -/
def demoReqPjax : Request := { meta := [("HTTP_X_PJAX", true)], other := 0 }

/-- A concrete request carrying a truthy HTTP_X_PJAX header plus an
unrelated header and different non-META data. -/
def demoReqPjax2 : Request :=
  { meta := [("X_OTHER", false), ("HTTP_X_PJAX", true)], other := 42 }

/-- A concrete request without the HTTP_X_PJAX header. -/
def demoReqPlain : Request := { meta := [("OTHER", true)], other := 1 }

/-- C9: pjax_block raises TypeError at decoration time exactly when both
title_variable and title_block are truthy, and with at most one of them
truthy it succeeds and returns the wrapping decorator. -/
theorem pjax_block_typeerror_iff (block : String) (tv tb : Option String) :
    ((∃ m, pjax_block block tv tb = .error m) ↔ (optTruthy tv = true ∧ optTruthy tb = true))
    ∧ (¬(optTruthy tv = true ∧ optTruthy tb = true) →
        pjax_block block tv tb = .ok (pjax_block_view block tv tb)) := by
  cases htv : optTruthy tv <;> cases htb : optTruthy tb <;> simp [pjax_block, htv, htb]

/-- Witness for C9: both title arguments truthy makes decoration fail. -/
theorem pjax_block_typeerror_iff_witness :
    ∃ m, pjax_block "content" (some "t") (some "b") = .error m :=
  (pjax_block_typeerror_iff "content" (some "t") (some "b")).1.mpr ⟨by decide, by decide⟩

/-- C10: _pjaxify_template_var rewrites lists and tuples elementwise
keeping the container type, length and order, rewrites plain strings,
and returns any other value unchanged. -/
theorem pjaxify_template_var_shape (s : String) (xs : List String) (tag : Nat) :
    pjaxify_template_var (.list xs) = .list (xs.map pjaxify_template_name)
    ∧ (xs.map pjaxify_template_name).length = xs.length
    ∧ pjaxify_template_var (.tuple xs) = .tuple (xs.map pjaxify_template_name)
    ∧ pjaxify_template_var (.str s) = .str (pjaxify_template_name s)
    ∧ pjaxify_template_var (.other tag) = .other tag :=
  ⟨rfl, by simp, rfl, rfl, rfl⟩

/-- C2: on a PJAX request the pjax decorator replaces template_name by a
truthy pjax_template, and otherwise pjaxifies the current template_name,
where the name rewrite inserts -pjax before the last dot and appends
-pjax to dotless names. -/
theorem pjax_swaps_template_name (pt : Option String) (view : Request → Resp)
    (req : Request) (hp : metaGetPjax req.meta = true) :
    (optTruthy pt = true →
      pjax pt view req = { view req with template_name := .str (optStr pt) })
    ∧ (optTruthy pt = false →
      pjax pt view req
        = { view req with template_name := pjaxify_template_var (view req).template_name })
    ∧ (∀ name : String,
        ('.' ∈ name.data →
          ∃ pre ext, name.data = pre ++ '.' :: ext ∧ '.' ∉ ext ∧
            (pjaxify_template_name name).data = pre ++ "-pjax.".data ++ ext)
        ∧ ('.' ∉ name.data → pjaxify_template_name name = name ++ "-pjax")) := by
  refine ⟨fun h => by simp [pjax, hp, h], fun h => by simp [pjax, hp, h],
    fun name => ⟨pjaxify_dot name, pjaxify_nodot name⟩⟩

/-- Witness for C2: a truthy pjax_template replaces the template name. -/
theorem pjax_swaps_template_name_witness :
    pjax (some "other.html") demoView demoReqPjax
      = { demoResp with template_name := .str "other.html" } :=
  (pjax_swaps_template_name (some "other.html") demoView demoReqPjax rfl).1 rfl

/-- C3: on a request without a truthy HTTP_X_PJAX entry, views wrapped
with pjax_block or pjax hand back the wrapped view's response object
with every attribute untouched. -/
theorem non_pjax_requests_untouched (block : String) (tv tb pt : Option String)
    (view : Request → Resp) (req : Request)
    (hne : (optTruthy tv && optTruthy tb) = false)
    (hm : metaGetPjax req.meta = false) :
    pjax_block block tv tb = .ok (pjax_block_view block tv tb)
    ∧ pjax_block_view block tv tb view req = view req
    ∧ pjax pt view req = view req := by
  refine ⟨by simp [pjax_block, hne], by simp [pjax_block_view, hm], by simp [pjax, hm]⟩

/-- Witness for C3: a non-PJAX request passes through pjax_block. -/
theorem non_pjax_requests_untouched_witness :
    pjax_block_view "content" none none demoView demoReqPlain = demoResp :=
  (non_pjax_requests_untouched "content" none none none demoView demoReqPlain rfl rfl).2.1

/-- C5: pjaxtend stores pjax_parent under context_var on a PJAX request
and parent otherwise when parent is truthy, leaves everything untouched
on a non-PJAX request with a falsy parent, and changes no attribute
other than context_data. -/
theorem pjaxtend_sets_parent_var (parent pjax_parent context_var : String)
    (view : Request → Resp) (req : Request) :
    (metaGetPjax req.meta = true →
      pjaxtend parent pjax_parent context_var view req
        = { view req with
            context_data := assocSet (view req).context_data context_var pjax_parent })
    ∧ (metaGetPjax req.meta = false → strTruthy parent = true →
      pjaxtend parent pjax_parent context_var view req
        = { view req with
            context_data := assocSet (view req).context_data context_var parent })
    ∧ (metaGetPjax req.meta = false → strTruthy parent = false →
      pjaxtend parent pjax_parent context_var view req = view req) := by
  refine ⟨fun h => by simp [pjaxtend, h], fun h h2 => by simp [pjaxtend, h, h2],
    fun h h2 => by simp [pjaxtend, h, h2]⟩

/-- Witness for C5: a PJAX request stores the pjax parent. -/
theorem pjaxtend_sets_parent_var_witness :
    pjaxtend "base.html" "pjax.html" "parent" demoView demoReqPjax
      = { demoResp with context_data := assocSet demoResp.context_data "parent" "pjax.html" } :=
  (pjaxtend_sets_parent_var "base.html" "pjax.html" "parent" demoView demoReqPjax).1 rfl

/-- C4: PJAXResponseMixin.get_template_names hands back the superclass
names unchanged on a non-PJAX request; on a PJAX request it returns the
one-element list holding pjax_template_name when that is set, and
otherwise the superclass names rewritten elementwise with the container
type preserved. -/
theorem mixin_get_template_names_spec (meta : List (String × Bool))
    (ptn : Option String) (names : TemplateVar) :
    (metaGetPjax meta = false → get_template_names meta ptn names = names)
    ∧ (metaGetPjax meta = true → optTruthy ptn = true →
        get_template_names meta ptn names = .list [optStr ptn])
    ∧ (metaGetPjax meta = true → optTruthy ptn = false →
        get_template_names meta ptn names = pjaxify_template_var names
        ∧ (∀ xs, names = .list xs →
            get_template_names meta ptn names = .list (xs.map pjaxify_template_name))
        ∧ (∀ xs, names = .tuple xs →
            get_template_names meta ptn names = .tuple (xs.map pjaxify_template_name))) := by
  refine ⟨fun h => by simp [get_template_names, h],
    fun h h2 => by simp [get_template_names, h, h2], fun h h2 => ?_⟩
  refine ⟨by simp [get_template_names, h, h2], ?_, ?_⟩
  · intro xs hx
    subst hx
    simp [get_template_names, h, h2, pjaxify_template_var]
  · intro xs hx
    subst hx
    simp [get_template_names, h, h2, pjaxify_template_var]

/-- Witness for C4: with no pjax_template_name the list is rewritten. -/
theorem mixin_get_template_names_spec_witness :
    get_template_names [("HTTP_X_PJAX", true)] none (.list ["a.b"]) = .list ["a-pjax.b"] :=
  ((mixin_get_template_names_spec [("HTTP_X_PJAX", true)] none (.list ["a.b"])).2.2
    rfl rfl).2.1 ["a.b"] rfl

/-- C7: each wrapper and the mixin depend on the request only through the
truthiness of META's HTTP_X_PJAX entry: given equal wrapped-view
responses and requests agreeing on that entry, the returned responses
are identical. -/
theorem decorators_read_only_pjax_header (block : String) (tv tb pt : Option String)
    (parent pjax_parent context_var : String) (ptn : Option String) (names : TemplateVar)
    (v1 v2 : Request → Resp) (r1 r2 : Request)
    (hv : v1 r1 = v2 r2) (hm : metaGetPjax r1.meta = metaGetPjax r2.meta) :
    pjax_block_view block tv tb v1 r1 = pjax_block_view block tv tb v2 r2
    ∧ pjax pt v1 r1 = pjax pt v2 r2
    ∧ pjaxtend parent pjax_parent context_var v1 r1 = pjaxtend parent pjax_parent context_var v2 r2
    ∧ get_template_names r1.meta ptn names = get_template_names r2.meta ptn names := by
  refine ⟨?_, ?_, ?_, ?_⟩ <;>
    simp [pjax_block_view, pjax, pjaxtend, get_template_names, hv, hm]

/-- Witness for C7: requests differing in headers other than HTTP_X_PJAX
and in non-META data lead to the same wrapped response. -/
theorem decorators_read_only_pjax_header_witness :
    pjax_block_view "content" none none demoView demoReqPjax
      = pjax_block_view "content" none none demoView demoReqPjax2 :=
  (decorators_read_only_pjax_header "content" none none none "b" "p" "parent" none
    (.str "x") demoView demoView demoReqPjax demoReqPjax2 rfl rfl).1

/-- C6: the patch_tree walk is total on every finite tree and relates its
input to its output by the walk specification: exactly the blocks whose
name is a target have their nodelist converted and keep their children
unwalked, every other node with a nodelist is walked recursively; the
walk preserves the node count, and the targets are exactly the truthy
ones among the block name and the title block name. -/
theorem patch_tree_spec (bn : String) (tb : Option String) (ns : NodeList) :
    PatchSpecList (targetBlocks bn tb) ns (patchList (targetBlocks bn tb) ns)
    ∧ countList (patchList (targetBlocks bn tb) ns) = countList ns
    ∧ (∀ name, name ∈ targetBlocks bn tb ↔
        (strTruthy bn = true ∧ name = bn) ∨ (optTruthy tb = true ∧ name = optStr tb)) := by
  refine ⟨patchList_patchSpec _ ns, countList_patch _ ns, fun name => ?_⟩
  unfold targetBlocks
  cases hbn : strTruthy bn <;> cases htb : optTruthy tb <;> simp [hbn, htb]

/-- C8: rendered_content fails with TemplateSyntaxError exactly when the
target block is missing from the captured blocks after rendering, or
when a truthy title_block is missing from them; it fails with KeyError
exactly when instead a truthy title_variable is missing from the
context; and otherwise it returns normally. -/
theorem rendered_content_error_cases (tpl : NodeList) (ctx : List (String × String))
    (bn : String) (tv tb : Option String) (capt : List (String × String))
    (hcapt : capt = (renderList (patchList (targetBlocks bn tb) tpl) []).2) :
    ((∃ m, rendered_content tpl ctx bn tv tb = .error (.templateSyntaxError m)) ↔
      (assocGet capt bn = none
        ∨ (assocGet capt bn ≠ none ∧ optTruthy tb = true ∧ assocGet capt (optStr tb) = none)))
    ∧ ((∃ m, rendered_content tpl ctx bn tv tb = .error (.keyError m)) ↔
      (assocGet capt bn ≠ none ∧ optTruthy tb = false ∧ optTruthy tv = true
        ∧ assocGet ctx (optStr tv) = none))
    ∧ rendered_content tpl ctx bn tv tb ≠ .error .attributeError
    ∧ ((∃ s, rendered_content tpl ctx bn tv tb = .ok s) ↔
      (¬(assocGet capt bn = none
          ∨ (assocGet capt bn ≠ none ∧ optTruthy tb = true ∧ assocGet capt (optStr tb) = none))
        ∧ ¬(assocGet capt bn ≠ none ∧ optTruthy tb = false ∧ optTruthy tv = true
          ∧ assocGet ctx (optStr tv) = none))) := by
  have key : rendered_content tpl ctx bn tv tb =
      (match assocGet capt bn with
       | none => Except.error (.templateSyntaxError
           ("PJAX block " ++ bn ++ " does not exist or was not rendered"))
       | some target_block_content =>
         match resolveTitle capt ctx tv tb with
         | .error e => .error e
         | .ok title => .ok (titleHtml title ++ target_block_content)) := by
    rw [hcapt]; rfl
  rw [key]
  rcases hb : assocGet capt bn with _ | content
  · simp [hb]
  · cases htb : optTruthy tb
    · cases htv : optTruthy tv
      · simp [hb, resolveTitle, htb, htv]
      · rcases hv : assocGet ctx (optStr tv) with _ | tval
        · simp [hb, resolveTitle, htb, htv, hv]
        · simp [hb, resolveTitle, htb, htv, hv]
    · rcases htc : assocGet capt (optStr tb) with _ | tcap
      · simp [hb, resolveTitle, htb, htc]
      · simp [hb, resolveTitle, htb, htc]

/-- Witness for C8: asking for a block the template never captures is a
TemplateSyntaxError. -/
theorem rendered_content_error_cases_witness :
    ∃ m, rendered_content demoTemplate [] "nope" none none = .error (.templateSyntaxError m) :=
  ((rendered_content_error_cases demoTemplate [] "nope" none none _ rfl).1).mpr
    (Or.inl (by decide))

/-- C1: on a PJAX request a view wrapped by pjax_block yields a response
whose rendered_content is the captured rendered output of the block
named by the decorator, prefixed by a title line when the configured
title resolves to a nonempty value; the whole template is still
rendered, with its full-page output unchanged by the patching, and the
returned fragment is in general not that full page. -/
theorem pjax_block_renders_target_block (block : String) (tv tb : Option String)
    (view : Request → Resp) (req : Request)
    (hne : (optTruthy tv && optTruthy tb) = false)
    (hp : metaGetPjax req.meta = true)
    (hfresh : freshList (view req).template = true)
    (c : String)
    (hc : lastCapture (pjaxEmitsList (targetBlocks block tb) (view req).template) block = some c)
    (tOpt : Option String)
    (ht : resolveTitle ((renderList (patchList (targetBlocks block tb) (view req).template) []).2)
        (view req).context_data tv tb = .ok tOpt) :
    pjax_block block tv tb = .ok (pjax_block_view block tv tb)
    ∧ (pjax_block_view block tv tb view req).renderedContent = .ok (titleHtml tOpt ++ c)
    ∧ (renderList (patchList (targetBlocks block tb) (view req).template) []).1
        = outputList (view req).template
    ∧ (∃ (tpl0 : NodeList) (bn0 : String) (s0 : String),
        rendered_content tpl0 [] bn0 none none = .ok s0 ∧ s0 ≠ outputList tpl0) := by
  have hget : assocGet
      ((renderList (patchList (targetBlocks block tb) (view req).template) []).2) block
      = some c := by
    rw [renderList_eq, emitsList_patch _ _ hfresh]
    show assocGet (applyCaps [] (pjaxEmitsList (targetBlocks block tb) (view req).template)) block
      = some c
    rw [assocGet_applyCaps_empty]
    exact hc
  refine ⟨by simp [pjax_block, hne], ?_, ?_, ?_⟩
  · have hview : pjax_block_view block tv tb view req
        = { view req with
            cls := .pjaxBlockTemplateResponse
            pjaxAttrs := some ⟨block, tv, tb⟩ } := by
      simp [pjax_block_view, hp]
    rw [hview]
    have hrc : Resp.renderedContent
        { view req with
          cls := .pjaxBlockTemplateResponse
          pjaxAttrs := some ⟨block, tv, tb⟩ }
        = rendered_content (view req).template (view req).context_data block tv tb := rfl
    rw [hrc]
    have key : rendered_content (view req).template (view req).context_data block tv tb
        = (match assocGet
              ((renderList (patchList (targetBlocks block tb) (view req).template) []).2) block with
           | none => Except.error (.templateSyntaxError
               ("PJAX block " ++ block ++ " does not exist or was not rendered"))
           | some target_block_content =>
             match resolveTitle
                 ((renderList (patchList (targetBlocks block tb) (view req).template) []).2)
                 (view req).context_data tv tb with
             | .error e => .error e
             | .ok title => .ok (titleHtml title ++ target_block_content)) := rfl
    rw [key]
    simp only [hget, ht]
  · rw [renderList_eq]
    show outputList (patchList (targetBlocks block tb) (view req).template)
      = outputList (view req).template
    exact outputList_patch _ _
  · exact ⟨.cons (.text "a") (.cons (.block "b" false (.cons (.text "x") .nil)) .nil),
      "b", "x", rfl, by decide⟩

/-- Witness for C1: the demo template's content block renders hello and
that is exactly what the wrapped view's rendered_content returns. -/
theorem pjax_block_renders_target_block_witness :
    (pjax_block_view "content" none none demoView demoReqPjax).renderedContent = .ok "hello" :=
  (pjax_block_renders_target_block "content" none none demoView demoReqPjax rfl rfl
    (by decide) "hello" (by decide) none rfl).2.1
